import Mathlib

/-!
# Verification of the rebase asset plugin (`src/index.js`)

This file gives a shallow embedding of the plugin's core: the
`resolveId` two-phase resolver, the `load` redirect synthesizer and the
`generateBundle` emitter, together with a model of the handful of Node
`path` primitives the source uses (POSIX flavour; the model assumes
paths without trailing slashes, and JS objects are modelled as plain
dictionaries).  File contents, hashing and the postcss transform are
abstracted as environment functions, exactly at the boundaries where the
source calls external packages (`fs-extra`, `asset-hash`, `postcss`).
-/

set_option autoImplicit false

namespace Rebase

/-! ## Character-list path utilities (model of Node `path`, POSIX) -/

/-- Split a character list on `'/'`.  Always returns a nonempty list of
segments; a faithful executable stand-in for the splitting done by the
Node `path` helpers. -/
def splitOnSlash : List Char → List (List Char)
  | [] => [[]]
  | c :: cs =>
    let r := splitOnSlash cs
    if c = '/' then [] :: r
    else (c :: r.headI) :: r.tail

/-- Join segments back with `'/'` separators. -/
def joinSegs : List (List Char) → List Char
  | [] => []
  | [x] => x
  | x :: xs => x ++ '/' :: joinSegs xs

/-- Split a character list at its last dot: `splitLastDot cs = some (stem, ext)`
means `cs = stem ++ ext`, `ext` begins with `'.'` and contains no further
dot; `none` when `cs` contains no dot at all. -/
def splitLastDot : List Char → Option (List Char × List Char)
  | [] => none
  | c :: cs =>
    match splitLastDot cs with
    | some (stem, ext) => some (c :: stem, ext)
    | none => if c = '.' then some ([], c :: cs) else none

/-- The final path segment (Node `path.basename` without a suffix argument,
for paths without trailing slashes). -/
def lastSegment (p : String) : String := ⟨(splitOnSlash p.data).getLastD []⟩

/-- Model of Node `path.extname`: the substring of the final segment from its
last dot, empty for dotless names, leading-dot files, `"."` and `".."`. -/
def extname (p : String) : String :=
  let b := lastSegment p
  if b = "." ∨ b = ".." then ""
  else
    match splitLastDot b.data with
    | none => ""
    | some (stem, ext) => if stem = [] then "" else ⟨ext⟩

/-- Model of Node `path.basename(p, ext)`: the final segment, with `ext`
removed when it is a proper trailing suffix of it. -/
def basenameExt (p ext : String) : String :=
  let b := lastSegment p
  if ext ≠ "" ∧ b ≠ ext ∧ ext.data.isSuffixOf b.data then
    ⟨b.data.take (b.data.length - ext.data.length)⟩
  else b

/-- Model of Node `path.dirname` for slash-separated paths. -/
def dirname (p : String) : String :=
  let parts := splitOnSlash p.data
  if parts.length ≤ 1 then "."
  else
    let d := joinSegs parts.dropLast
    if d = [] then "/" else ⟨d⟩

/-- Whether a path is absolute (begins with `'/'`). -/
def isAbs (p : String) : Bool := p.data.head? = some '/'

/-- One segment step of path normalisation: drop empty and `"."` segments,
let `".."` pop the previous segment. -/
def stepSeg (acc : List (List Char)) (s : List Char) : List (List Char) :=
  if s = [] ∨ s = ['.'] then acc
  else if s = ['.', '.'] then acc.dropLast
  else acc ++ [s]

/-- Model of Node `path.resolve(dir, p)` for an absolute `dir`: make the
path absolute against `dir` and normalise the segments. -/
def pathResolve (dir p : String) : String :=
  let full : List Char := if isAbs p then p.data else dir.data ++ '/' :: p.data
  ⟨'/' :: joinSegs ((splitOnSlash full).foldl stepSeg [])⟩

/-- Model of Node `path.join` on two pieces (no normalisation needed for the
segment-normal inputs the plugin produces). -/
def pathJoin (a b : String) : String :=
  if a = "" then b else if b = "" then a else a ++ "/" ++ b

/-- Three-argument `path.join`, as used for the virtual asset id. -/
def pathJoin3 (a b c : String) : String := pathJoin (pathJoin a b) c

/-- The `.replace(/\\/g, "/")` normalisation applied to the asset id. -/
def replaceBackslashes (p : String) : String :=
  ⟨p.data.map fun c => if c = '\\' then '/' else c⟩

/-! ## The plugin's tables and configuration (from `src/index.js`) -/

/-- The script-family extension test (`scriptExtensions` regex, line 14). -/
def scriptExtensions (ext : String) : Bool :=
  ext == ".json" || ext == ".mjs" || ext == ".js" || ext == ".jsx" ||
    ext == ".ts" || ext == ".tsx"

/-- The dedicated stylesheet parsers referenced by the `styleParser` table. -/
inductive CssParser where
  | sugarss
  | scss
  | sass
deriving DecidableEq, Repr

/-- The `styleParser` table (lines 16–22): `some p` means the extension is a
key of the table, with `p` the parser entry (`none` = plain-CSS default). -/
def styleParser (ext : String) : Option (Option CssParser) :=
  if ext = ".pcss" then some none
  else if ext = ".css" then some none
  else if ext = ".sss" then some (some .sugarss)
  else if ext = ".scss" then some (some .scss)
  else if ext = ".sass" then some (some .sass)
  else none

/-- Plugin options (the recognized configuration surface; `include`/`exclude`
are abstracted into the `filter` predicate built by `createFilter`). -/
structure RebaseOptions where
  filter : String → Bool
  keepName : Bool := false
  skipHash : Bool := false
  assetFolder : String := ""

/-- Build environment: the external collaborators `resolveId` consults
(`process.cwd` for entry resolution, `fs.pathExists`, `getHash`). Within one
build a file's hash is a function of its path. -/
structure BuildEnv where
  cwd : String
  pathExists : String → Bool
  getHash : String → String

/-- The plugin's mutable registries (`wrappers`, `assets`, `files`, `root`).
Assignment is modelled by consing; lookups take the newest entry. -/
structure RebaseState where
  wrappers : List (String × String)
  assets : List String
  files : List (String × String)
  root : Option String
deriving DecidableEq, Repr

/-- The registries at the start of a build. -/
def emptyState : RebaseState := ⟨[], [], [], none⟩

/-- Outcome of one `resolveId` call: `notHandled` is JS `null` (delegate),
`excluded` is JS `false` (do not bundle), `handled` carries the redirect id,
`errored` is the `TypeError` thrown by `path.join(null, …)` when no entry
call ever initialised `root`. -/
inductive ResolveResult where
  | notHandled
  | excluded
  | handled (resolvedId : String)
  | errored
deriving DecidableEq, Repr

/-- Result of a `resolveId` call: the returned value, the updated registries,
and how many `getHash` invocations the call performed. -/
structure ResolveOut where
  result : ResolveResult
  state : RebaseState
  hashComputations : Nat
deriving DecidableEq, Repr

/-- The effective extension used for naming: `.sss` is remapped to `.pcss`
(lines 121–124), every other extension is kept. -/
def effectiveExt (importee : String) : String :=
  if extname importee = ".sss" then ".pcss" else extname importee

/-- The destination file name computed by lines 145–156: base name (with the
effective extension stripped when possible), optionally combined with the
content hash according to `skipHash`/`keepName`. -/
def fileTargetOf (opts : RebaseOptions) (env : BuildEnv)
    (importee fileSource : String) : String :=
  let fileName := basenameExt importee (effectiveExt importee)
  if opts.skipHash then fileName ++ effectiveExt importee
  else if opts.keepName then
    fileName ++ "~" ++ env.getHash fileSource ++ effectiveExt importee
  else env.getHash fileSource ++ effectiveExt importee

/-- Shallow embedding of the `resolveId` hook (lines 99–184). -/
def resolveId (opts : RebaseOptions) (env : BuildEnv) (st : RebaseState)
    (importee : String) (importer : Option String) : ResolveOut :=
  match importer with
  | none =>
    -- Lines 102–105: entry files set the root directory and are delegated.
    { result := .notHandled
      state := { st with root := some (dirname (pathResolve env.cwd importee)) }
      hashComputations := 0 }
  | some importer =>
    -- Lines 107–111: already-registered asset ids are excluded from bundling.
    if st.assets.contains importee then
      { result := .excluded, state := st, hashComputations := 0 }
    else
      -- Lines 113–119: extension-less and script-family imports are delegated.
      if extname importee = "" ∨ scriptExtensions (extname importee) = true then
        { result := .notHandled, state := st, hashComputations := 0 }
      else
        -- Lines 126–131: resolve against the importer and apply the filter.
        let fileSource := pathResolve (dirname importer) importee
        if opts.filter fileSource = false then
          { result := .notHandled, state := st, hashComputations := 0 }
        else
          -- Lines 133–143: delegate paths that do not exist on disk.
          if env.pathExists fileSource = false then
            { result := .notHandled, state := st, hashComputations := 0 }
          else
            -- Lines 145–160: compute the target name and register the copy job.
            let fileTarget := fileTargetOf opts env importee fileSource
            let nHash : Nat := if opts.skipHash then 0 else 1
            let files' := (fileSource, pathJoin opts.assetFolder fileTarget) :: st.files
            match st.root with
            | none =>
              -- `path.join(root, …)` throws when root was never initialised;
              -- the `files` entry of line 160 is already written at that point.
              { result := .errored
                state := { st with files := files' }
                hashComputations := nHash }
            | some root =>
              -- Lines 162–183: derive the virtual asset id and redirect id,
              -- register both, and return the redirect id.
              let assetId := replaceBackslashes (pathJoin3 root opts.assetFolder fileTarget)
              let resolvedId := assetId ++ ".js"
              { result := .handled resolvedId
                state := { st with
                  files := files'
                  assets := assetId :: st.assets
                  wrappers := (resolvedId, assetId) :: st.wrappers }
                hashComputations := nHash }

/-- Shallow embedding of the `load` hook (lines 186–198). -/
def load (st : RebaseState) (id : String) : Option String :=
  match st.wrappers.lookup id with
  | some importee => some ("export \x7b default \x7d from \"" ++ importee ++ "\";")
  | none => none

/-! ## The emit phase (`generateBundle`, lines 200–234, and `processStyle`) -/

/-- External collaborators of the emit phase: raw file contents, the postcss
transform's two outputs, and the possible failure of each stage's I/O
(`some e` = the operation rejects with error `e`). -/
structure EmitEnv where
  readBytes : String → String
  cssOut : String → String → String
  mapOut : String → String → String
  copyError : String → String → Option String
  styleError : String → String → Option String

/-- Line 201: `dir || path.dirname(file)`. -/
def outputFolderOf (file dir : Option String) : String :=
  match dir with
  | some d => d
  | none => dirname (file.getD "")

/-- Line 232: the single fatal wrapper put around any emit failure. -/
def wrapEmitError (e : String) : String := "Error while copying files: " ++ e

/-- The parser chosen by `processStyle` (line 38): `styleParser[path.extname(id)]`. -/
def processStyleParser (id : String) : Option CssParser :=
  match styleParser (extname id) with
  | some p => p
  | none => none

/-- One per-asset job of `generateBundle`: stylesheet processing or a
verbatim copy, each with its computed destination. -/
inductive EmitJob where
  | style (src dest : String)
  | copy (src dest : String)
deriving DecidableEq, Repr

/-- Lines 206–212: one job per registered `files` entry, dispatched on whether
the source extension is a key of the `styleParser` table. -/
def emitJobs (outputFolder : String) (st : RebaseState) : List EmitJob :=
  st.files.map fun sf =>
    let dest := pathJoin outputFolder sf.2
    if (styleParser (extname sf.1)).isSome then .style sf.1 dest else .copy sf.1 dest

/-- Run one job: `processStyle` writes the transformed css at the destination
and the source map at `dest ++ ".map"` (lines 52–55); a copy job writes the
source bytes verbatim (line 227).  A failing job yields its raw error. -/
def runJob (env : EmitEnv) : EmitJob → Except String (List (String × String))
  | .style src dest =>
    match env.styleError src dest with
    | some e => .error e
    | none => .ok [(dest, env.cssOut src dest), (dest ++ ".map", env.mapOut src dest)]
  | .copy src dest =>
    match env.copyError src dest with
    | some e => .error e
    | none => .ok [(dest, env.readBytes src)]

/-- Shallow embedding of `generateBundle`: all writes performed by the jobs
that settle successfully, and (when some job fails) the single fatal error of
line 232 wrapping a failing job's underlying error.  Nothing already written
is removed when another job fails. -/
def generateBundle (env : EmitEnv) (file dir : Option String) (st : RebaseState) :
    List (String × String) × Option String :=
  let results := (emitJobs (outputFolderOf file dir) st).map (runJob env)
  ((results.map fun r => match r with | .ok ws => ws | .error _ => []).flatten,
   (results.filterMap fun r => match r with | .ok _ => none | .error e => some e).head?.map
     wrapEmitError)

/-! ## Derived definitions used by the claims -/

/-- The spec's notion of "base name": the final segment of the referenced
path with its extension (in the sense of `extname`) removed. -/
def specBaseName (p : String) : String :=
  let b := lastSegment p
  if b = "." ∨ b = ".." then b
  else
    match splitLastDot b.data with
    | none => b
    | some (stem, _) => if stem = [] then b else ⟨stem⟩

/-- The absolute source path computed on line 128. -/
def fileSourceOf (importer importee : String) : String :=
  pathResolve (dirname importer) importee

/-- The virtual asset id computed on line 164. -/
def assetIdOf (opts : RebaseOptions) (env : BuildEnv)
    (rt importee fileSource : String) : String :=
  replaceBackslashes (pathJoin3 rt opts.assetFolder (fileTargetOf opts env importee fileSource))

/-- The guard under which a `resolveId` call registers a fresh asset: a
referrer is present, the importee is not an already-registered asset id, its
extension is neither empty nor script-family, the filter passes and the
source file exists. -/
def registersAsset (opts : RebaseOptions) (env : BuildEnv) (st : RebaseState)
    (importee importer : String) : Prop :=
  st.assets.contains importee = false ∧
  extname importee ≠ "" ∧
  scriptExtensions (extname importee) = false ∧
  opts.filter (fileSourceOf importer importee) = true ∧
  env.pathExists (fileSourceOf importer importee) = true

instance (opts : RebaseOptions) (env : BuildEnv) (st : RebaseState)
    (importee importer : String) :
    Decidable (registersAsset opts env st importee importer) := by
  unfold registersAsset; infer_instance

/-- One build's resolver calls, applied in order from a starting state. -/
def runCalls (opts : RebaseOptions) (env : BuildEnv)
    (calls : List (String × Option String)) (st : RebaseState) : RebaseState :=
  calls.foldl (fun s c => (resolveId opts env s c.1 c.2).state) st

/-- The registry invariant: every wrapper entry's target virtual asset id is
present in the registered-asset-id set. -/
def wrapperTargetsRegistered (st : RebaseState) : Prop :=
  ∀ w ∈ st.wrappers, w.2 ∈ st.assets

/-- `e` is a trailing suffix of `s`, on the underlying characters: the
"is named under this extension" relation. -/
def strEndsWith (s e : String) : Prop := e.data <:+ s.data

instance (s e : String) : Decidable (strEndsWith s e) := by
  unfold strEndsWith; infer_instance

/-! ## Concrete scenario instances used in counterexamples and witnesses -/

/-- Options with content hashing enabled, `keepName` off, no asset folder. -/
def plainOpts : RebaseOptions := ⟨fun _ => true, false, false, ""⟩

/-- Options with `skipHash = true`. -/
def skipHashOpts : RebaseOptions := ⟨fun _ => true, false, true, ""⟩

/-- An environment where every file exists and hashes to `"HASH"`. -/
def hashAllTrueEnv : BuildEnv := ⟨"/", fun _ => true, fun _ => "HASH"⟩

/-- An environment assigning two sources two different content hashes. -/
def twoHashEnv : BuildEnv :=
  ⟨"/", fun _ => true, fun s => if s = "/proj/a/logo.png" then "H1" else "H2"⟩

/-- A fresh build state whose root has been set to `/proj` by the entry call. -/
def projState : RebaseState := ⟨[], [], [], some "/proj"⟩

/-- A registry holding one non-stylesheet copy job. -/
def pngFileState : RebaseState := ⟨[], [], [("/s/a.png", "a.png")], none⟩

/-- A registry holding one stylesheet processing job. -/
def cssFileState : RebaseState := ⟨[], [], [("/s/a.css", "a.css")], none⟩

/-- A registry holding one stylesheet and one plain asset. -/
def twoFileState : RebaseState :=
  ⟨[], [], [("/s/a.css", "a.css"), ("/s/b.png", "b.png")], none⟩

/-- An emit environment where every operation succeeds. -/
def okEmitEnv : EmitEnv :=
  ⟨fun _ => "BYTES", fun _ _ => "CSS", fun _ _ => "MAP", fun _ _ => none, fun _ _ => none⟩

/-- An emit environment whose copy primitive rejects with `"boom"`. -/
def failCopyEnv : EmitEnv :=
  ⟨fun _ => "BYTES", fun _ _ => "CSS", fun _ _ => "MAP", fun _ _ => some "boom",
    fun _ _ => none⟩

/-- An emit environment whose stylesheet pipeline rejects with `"boom"`. -/
def failStyleEnv : EmitEnv :=
  ⟨fun _ => "BYTES", fun _ _ => "CSS", fun _ _ => "MAP", fun _ _ => none,
    fun _ _ => some "boom"⟩

/-! ## Basic facts about the path model -/

theorem splitLastDot_append {cs s e : List Char}
    (h : splitLastDot cs = some (s, e)) : cs = s ++ e := by
  induction cs generalizing s e with
  | nil => simp [splitLastDot] at h
  | cons c cs ih =>
    rw [splitLastDot] at h
    cases hrec : splitLastDot cs with
    | some p =>
      obtain ⟨s', e'⟩ := p
      rw [hrec] at h
      simp only [Option.some.injEq, Prod.mk.injEq] at h
      obtain ⟨h1, h2⟩ := h
      subst h1; subst h2
      simpa using ih hrec
    | none =>
      rw [hrec] at h
      by_cases hc : c = '.'
      · rw [if_pos hc] at h
        simp only [Option.some.injEq, Prod.mk.injEq] at h
        obtain ⟨h1, h2⟩ := h
        subst h1; subst h2
        simp
      · simp [hc] at h

theorem splitLastDot_ext_shape {cs s e : List Char}
    (h : splitLastDot cs = some (s, e)) : ∃ t, e = '.' :: t := by
  induction cs generalizing s e with
  | nil => simp [splitLastDot] at h
  | cons c cs ih =>
    rw [splitLastDot] at h
    cases hrec : splitLastDot cs with
    | some p =>
      obtain ⟨s', e'⟩ := p
      rw [hrec] at h
      simp only [Option.some.injEq, Prod.mk.injEq] at h
      obtain ⟨h1, h2⟩ := h
      subst h2
      exact ih hrec
    | none =>
      rw [hrec] at h
      by_cases hc : c = '.'
      · rw [if_pos hc] at h
        simp only [Option.some.injEq, Prod.mk.injEq] at h
        exact ⟨cs, by rw [← h.2, hc]⟩
      · simp [hc] at h

/-- For a path that has an extension, Node's `basename(p, extname p)` is
exactly the spec's base name, and base name and extension reassemble the
final segment. -/
theorem specBaseName_spec {p : String} (h : extname p ≠ "") :
    basenameExt p (extname p) = specBaseName p ∧
    specBaseName p ++ extname p = lastSegment p := by
  by_cases hb : lastSegment p = "." ∨ lastSegment p = ".."
  · exact absurd (by simp only [extname]; rw [if_pos hb]) h
  · cases hsplit : splitLastDot (lastSegment p).data with
    | none =>
      exact absurd (by simp only [extname]; rw [if_neg hb, hsplit]) h
    | some se =>
      obtain ⟨stem, ext⟩ := se
      by_cases hstem : stem = []
      · exact absurd (by simp only [extname]; rw [if_neg hb, hsplit]; simp [hstem]) h
      · have hex : extname p = ⟨ext⟩ := by
          simp only [extname]; rw [if_neg hb, hsplit]; simp [hstem]
        have hbn : specBaseName p = ⟨stem⟩ := by
          simp only [specBaseName]; rw [if_neg hb, hsplit]; simp [hstem]
        have hdata : (lastSegment p).data = stem ++ ext := splitLastDot_append hsplit
        obtain ⟨t, ht⟩ := splitLastDot_ext_shape hsplit
        have hextNe : ext ≠ [] := by simp [ht]
        have hbne : lastSegment p ≠ (⟨ext⟩ : String) := by
          intro hcontra
          have hd : stem ++ ext = ext := by
            rw [← hdata]; exact congrArg String.data hcontra
          have hl : stem.length + ext.length = ext.length := by
            simpa using congrArg List.length hd
          exact hstem (List.eq_nil_of_length_eq_zero (by omega))
        have hsuf : ext.isSuffixOf (lastSegment p).data = true := by
          rw [List.isSuffixOf_iff_suffix, hdata]
          exact List.suffix_append stem ext
        constructor
        · rw [hex, hbn]
          have hcond : (⟨ext⟩ : String) ≠ "" ∧ lastSegment p ≠ (⟨ext⟩ : String) ∧
              (⟨ext⟩ : String).data.isSuffixOf (lastSegment p).data = true :=
            ⟨fun hc => hextNe (congrArg String.data hc), hbne, hsuf⟩
          simp only [basenameExt]
          rw [if_pos hcond]
          apply String.ext
          show (lastSegment p).data.take ((lastSegment p).data.length - ext.length) = stem
          rw [hdata]
          have hlen : (stem ++ ext).length - ext.length = stem.length := by simp
          rw [hlen]
          exact List.take_left stem ext
        · rw [hex, hbn]
          apply String.ext
          rw [String.data_append, hdata]

/-! ## Evaluation lemmas for `resolveId` -/

/-- Forward evaluation: under the registration guard and with `root`
initialised, `resolveId` registers the copy job, the asset id and the wrapper,
and returns the redirect id (the asset id with the `.js` marker). -/
theorem resolveId_registers (opts : RebaseOptions) (env : BuildEnv) (st : RebaseState)
    (importee importer rt : String)
    (hreg : registersAsset opts env st importee importer)
    (hR : st.root = some rt) :
    resolveId opts env st importee (some importer) =
      { result := .handled (assetIdOf opts env rt importee (fileSourceOf importer importee) ++ ".js")
        state := { st with
          files := (fileSourceOf importer importee,
            pathJoin opts.assetFolder
              (fileTargetOf opts env importee (fileSourceOf importer importee))) :: st.files
          assets := assetIdOf opts env rt importee (fileSourceOf importer importee) :: st.assets
          wrappers := (assetIdOf opts env rt importee (fileSourceOf importer importee) ++ ".js",
              assetIdOf opts env rt importee (fileSourceOf importer importee)) :: st.wrappers }
        hashComputations := if opts.skipHash then 0 else 1 } := by
  obtain ⟨hA, hE, hS, hF, hP⟩ := hreg
  simp only [resolveId, fileSourceOf, assetIdOf] at *
  rw [hA, hF, hP, hR]
  simp [hE, hS]

/-- The delegating early exits: with a referrer present and the importee not
an already-registered asset id, failing any other part of the guard returns
`notHandled` with the registries untouched and no hash computed. -/
theorem resolveId_delegates (opts : RebaseOptions) (env : BuildEnv) (st : RebaseState)
    (importee importer : String)
    (hA : st.assets.contains importee = false)
    (hcond : extname importee = "" ∨ scriptExtensions (extname importee) = true ∨
      opts.filter (fileSourceOf importer importee) = false ∨
      env.pathExists (fileSourceOf importer importee) = false) :
    resolveId opts env st importee (some importer) =
      { result := .notHandled, state := st, hashComputations := 0 } := by
  simp only [resolveId, fileSourceOf] at *
  rw [hA]
  by_cases hE : extname importee = "" ∨ scriptExtensions (extname importee) = true
  · simp [hE]
  · rw [if_neg ?_]
    · push_neg at hE
      rcases hcond with h | h | h | h
      · exact absurd h hE.1
      · exact absurd h (by simpa using hE.2)
      · simp [h]
      · by_cases hF : opts.filter (pathResolve (dirname importer) importee) = false
        · simp [hF]
        · simp only [Bool.not_eq_false] at hF
          simp [hF, h]
    · simp

/-- The exclusion early exit (lines 107–111): an importee that is a registered
asset id is excluded, with the registries untouched. -/
theorem resolveId_excludes (opts : RebaseOptions) (env : BuildEnv) (st : RebaseState)
    (importee importer : String)
    (hA : st.assets.contains importee = true) :
    resolveId opts env st importee (some importer) =
      { result := .excluded, state := st, hashComputations := 0 } := by
  simp only [resolveId]
  rw [hA]
  simp

/-! ## Build runs and the registry invariant -/

/-- A single `resolveId` call preserves the registry invariant: a fresh
wrapper entry is only ever written together with its asset-id registration. -/
theorem resolveId_preserves_wrapperInvariant (opts : RebaseOptions) (env : BuildEnv)
    (st : RebaseState) (importee : String) (importer : Option String)
    (h : wrapperTargetsRegistered st) :
    wrapperTargetsRegistered (resolveId opts env st importee importer).state := by
  unfold wrapperTargetsRegistered at h ⊢
  cases importer with
  | none => simpa [resolveId] using h
  | some importer =>
    by_cases hA : st.assets.contains importee = true
    · rw [resolveId_excludes opts env st importee importer hA]
      exact h
    · rw [Bool.not_eq_true] at hA
      by_cases hE : extname importee = "" ∨ scriptExtensions (extname importee) = true
      · rw [resolveId_delegates opts env st importee importer hA
          (hE.elim Or.inl fun he => Or.inr (Or.inl he))]
        exact h
      · by_cases hF : opts.filter (fileSourceOf importer importee) = true
        · by_cases hP : env.pathExists (fileSourceOf importer importee) = true
          · cases hR : st.root with
            | none =>
              push_neg at hE
              simp only [resolveId, fileSourceOf] at *
              rw [hA, hF, hP, hR]
              simp only [hE.1, hE.2, false_or, if_neg, if_false]
              simpa using h
            | some rt =>
              push_neg at hE
              rw [resolveId_registers opts env st importee importer rt
                ⟨hA, hE.1, by simpa using hE.2, hF, hP⟩ hR]
              intro w hw
              simp only [List.mem_cons] at hw ⊢
              rcases hw with hw | hw
              · exact Or.inl (by rw [hw])
              · exact Or.inr (h w hw)
          · rw [Bool.not_eq_true] at hP
            rw [resolveId_delegates opts env st importee importer hA
              (Or.inr (Or.inr (Or.inr hP)))]
            exact h
        · rw [Bool.not_eq_true] at hF
          rw [resolveId_delegates opts env st importee importer hA
            (Or.inr (Or.inr (Or.inl hF)))]
          exact h

/-- The invariant is preserved by any sequence of resolver calls. -/
theorem runCalls_preserves_wrapperInvariant (opts : RebaseOptions) (env : BuildEnv)
    (calls : List (String × Option String)) :
    ∀ st : RebaseState, wrapperTargetsRegistered st →
      wrapperTargetsRegistered (runCalls opts env calls st) := by
  induction calls with
  | nil => exact fun st h => h
  | cons c cs ih =>
    intro st h
    exact ih _ (resolveId_preserves_wrapperInvariant opts env st c.1 c.2 h)

/-- Forward evaluation of the thrown case: under the registration guard but
with `root` never initialised, the copy job of line 160 is registered and the
call then throws at line 164. -/
theorem resolveId_noRoot (opts : RebaseOptions) (env : BuildEnv) (st : RebaseState)
    (importee importer : String)
    (hreg : registersAsset opts env st importee importer)
    (hR : st.root = none) :
    resolveId opts env st importee (some importer) =
      { result := .errored
        state := { st with
          files := (fileSourceOf importer importee,
            pathJoin opts.assetFolder
              (fileTargetOf opts env importee (fileSourceOf importer importee))) :: st.files }
        hashComputations := if opts.skipHash then 0 else 1 } := by
  obtain ⟨hA, hE, hS, hF, hP⟩ := hreg
  simp only [resolveId, fileSourceOf] at *
  rw [hA, hF, hP, hR]
  simp [hE, hS]

/-! ## Suffix and join lemmas -/

theorem strEndsWith_append (s e : String) : strEndsWith (s ++ e) e := by
  unfold strEndsWith
  rw [String.data_append]
  exact List.suffix_append _ _

theorem strEndsWith_pathJoin (a t e : String) (h : strEndsWith t e) :
    strEndsWith (pathJoin a t) e := by
  unfold pathJoin
  by_cases ha : a = ""
  · rw [if_pos ha]; exact h
  · rw [if_neg ha]
    by_cases ht : t = ""
    · rw [if_pos ht]
      subst ht
      have he : e.data = [] := List.eq_nil_of_suffix_nil h
      unfold strEndsWith
      rw [he]
      exact List.nil_suffix
    · rw [if_neg ht]
      exact h.trans (by rw [String.data_append]; exact List.suffix_append _ _)

/-- A name ending in `".pcss"` does not end in `".sss"`. -/
theorem not_endsWith_sss_of_pcss (s : String) (h : strEndsWith s ".pcss") :
    ¬ strEndsWith s ".sss" := by
  intro hc
  rcases List.suffix_or_suffix_of_suffix hc h with h' | h'
  · exact absurd h' (by decide)
  · exact absurd h' (by decide)

/-- `pathJoin` is injective in its second argument for nonempty names. -/
theorem pathJoin_right_inj (a t1 t2 : String) (h1 : t1 ≠ "") (h2 : t2 ≠ "")
    (h : pathJoin a t1 = pathJoin a t2) : t1 = t2 := by
  unfold pathJoin at h
  by_cases ha : a = ""
  · simpa [ha] using h
  · rw [if_neg ha, if_neg h1, if_neg ha, if_neg h2] at h
    have hd := congrArg String.data h
    rw [String.data_append, String.data_append] at hd
    exact String.ext (List.append_cancel_left hd)

/-- String concatenation cancels on the right. -/
theorem string_append_right_cancel {x y e : String} (h : x ++ e = y ++ e) : x = y := by
  have hd := congrArg String.data h
  rw [String.data_append, String.data_append] at hd
  exact String.ext (List.append_cancel_right hd)

/-! ## Emission lemmas -/

/-- Every write of a successfully settled job appears in the emitted output
(in particular it is not rolled back when another job fails). -/
theorem generateBundle_writes_of_ok (env : EmitEnv) (file dir : Option String)
    (st : RebaseState) (job : EmitJob) (ws : List (String × String))
    (hjob : job ∈ emitJobs (outputFolderOf file dir) st)
    (hok : runJob env job = .ok ws) :
    ∀ w ∈ ws, w ∈ (generateBundle env file dir st).1 := by
  intro w hw
  unfold generateBundle
  simp only
  apply List.mem_flatten.mpr
  exact ⟨ws, List.mem_map.mpr ⟨Except.ok ws, List.mem_map.mpr ⟨job, hjob, hok⟩, rfl⟩, hw⟩

/-- The emit phase depends on the state only through the `files` registry. -/
theorem generateBundle_files_only (env : EmitEnv) (file dir : Option String)
    (st1 st2 : RebaseState) (h : st1.files = st2.files) :
    generateBundle env file dir st1 = generateBundle env file dir st2 := by
  unfold generateBundle emitJobs
  rw [h]

/-! ## Facts about the computed file target -/

/-- The computed destination name always ends in the effective extension. -/
theorem fileTargetOf_endsWith_effectiveExt (opts : RebaseOptions) (env : BuildEnv)
    (importee fileSource : String) :
    strEndsWith (fileTargetOf opts env importee fileSource) (effectiveExt importee) := by
  simp only [fileTargetOf]
  by_cases hs : opts.skipHash = true
  · rw [if_pos hs]; exact strEndsWith_append _ _
  · rw [if_neg hs]
    by_cases hk : opts.keepName = true
    · rw [if_pos hk]; exact strEndsWith_append _ _
    · rw [if_neg hk]; exact strEndsWith_append _ _

/-- With hashing enabled and `keepName` off, the destination name is
hash-plus-effective-extension. -/
theorem fileTargetOf_hashOnly (opts : RebaseOptions) (env : BuildEnv)
    (importee fileSource : String)
    (hsh : opts.skipHash = false) (hkn : opts.keepName = false) :
    fileTargetOf opts env importee fileSource =
      env.getHash fileSource ++ effectiveExt importee := by
  simp [fileTargetOf, hsh, hkn]

/-- The effective extension of an importee with an extension is nonempty. -/
theorem effectiveExt_ne_empty {importee : String} (h : extname importee ≠ "") :
    effectiveExt importee ≠ "" := by
  unfold effectiveExt
  by_cases hs : extname importee = ".sss"
  · rw [if_pos hs]; decide
  · rw [if_neg hs]; exact h

/-- Appending a nonempty string yields a nonempty string. -/
theorem append_ne_empty_of_right {x e : String} (he : e ≠ "") : x ++ e ≠ "" := by
  intro hcontra
  have hd := congrArg String.data hcontra
  rw [String.data_append] at hd
  exact he (String.ext (List.append_eq_nil.mp hd).2)

/-! ## Root independence of the copy registry -/

/-- The `files` registry update and the hash count of a `resolveId` call do
not depend on the current `root` value. -/
theorem resolveId_root_independent (opts : RebaseOptions) (env : BuildEnv)
    (st : RebaseState) (r1 r2 : Option String) (importee : String)
    (importer : Option String) :
    (resolveId opts env { st with root := r1 } importee importer).state.files =
      (resolveId opts env { st with root := r2 } importee importer).state.files ∧
    (resolveId opts env { st with root := r1 } importee importer).hashComputations =
      (resolveId opts env { st with root := r2 } importee importer).hashComputations := by
  cases importer with
  | none => exact ⟨rfl, rfl⟩
  | some importer =>
    by_cases hA : st.assets.contains importee = true
    · rw [resolveId_excludes opts env { st with root := r1 } importee importer hA,
        resolveId_excludes opts env { st with root := r2 } importee importer hA]
      exact ⟨rfl, rfl⟩
    · rw [Bool.not_eq_true] at hA
      by_cases hreg : registersAsset opts env { st with root := r1 } importee importer
      · have hreg2 : registersAsset opts env { st with root := r2 } importee importer := hreg
        cases r1 with
        | none =>
          rw [resolveId_noRoot opts env _ importee importer hreg rfl]
          cases r2 with
          | none =>
            rw [resolveId_noRoot opts env _ importee importer hreg2 rfl]
            exact ⟨rfl, rfl⟩
          | some rt2 =>
            rw [resolveId_registers opts env _ importee importer rt2 hreg2 rfl]
            exact ⟨rfl, rfl⟩
        | some rt1 =>
          rw [resolveId_registers opts env _ importee importer rt1 hreg rfl]
          cases r2 with
          | none =>
            rw [resolveId_noRoot opts env _ importee importer hreg2 rfl]
            exact ⟨rfl, rfl⟩
          | some rt2 =>
            rw [resolveId_registers opts env _ importee importer rt2 hreg2 rfl]
            exact ⟨rfl, rfl⟩
      · have hcond : extname importee = "" ∨ scriptExtensions (extname importee) = true ∨
            opts.filter (fileSourceOf importer importee) = false ∨
            env.pathExists (fileSourceOf importer importee) = false := by
          unfold registersAsset at hreg
          push_neg at hreg
          by_cases hE : extname importee = ""
          · exact Or.inl hE
          · by_cases hS : scriptExtensions (extname importee) = true
            · exact Or.inr (Or.inl hS)
            · by_cases hF : opts.filter (fileSourceOf importer importee) = true
              · refine Or.inr (Or.inr (Or.inr ?_))
                have := hreg hA hE (by simpa using hS) hF
                simpa using this
              · exact Or.inr (Or.inr (Or.inl (by simpa using hF)))
        rw [resolveId_delegates opts env { st with root := r1 } importee importer hA hcond,
          resolveId_delegates opts env { st with root := r2 } importee importer hA hcond]
        exact ⟨rfl, rfl⟩

/-! ## Claims -/

/-- C2: for every virtual asset id present in the registered-asset-id set, a
resolution request for that exact id (from any referrer) returns the
`excluded` (falsy do-not-bundle) result — never `handled`, and with the
registries left untouched, so no fresh registration occurs. -/
theorem c2_cycle_breaking (opts : RebaseOptions) (env : BuildEnv) (st : RebaseState)
    (assetId importer : String)
    (h : st.assets.contains assetId = true) :
    (resolveId opts env st assetId (some importer)).result = .excluded ∧
    (∀ r, (resolveId opts env st assetId (some importer)).result ≠ .handled r) ∧
    (resolveId opts env st assetId (some importer)).state = st := by
  rw [resolveId_excludes opts env st assetId importer h]
  exact ⟨rfl, fun r hr => ResolveResult.noConfusion hr, rfl⟩

/-- Witness for C2 at a concrete registered asset id. -/
theorem c2_cycle_breaking_witness :
    (⟨[("/proj/A.png.js", "/proj/A.png")], ["/proj/A.png"], [], some "/proj"⟩ :
        RebaseState).assets.contains "/proj/A.png" = true ∧
    (resolveId ⟨fun _ => true, false, false, ""⟩ ⟨"/", fun _ => true, fun _ => "H"⟩
        ⟨[("/proj/A.png.js", "/proj/A.png")], ["/proj/A.png"], [], some "/proj"⟩
        "/proj/A.png" (some "/proj/main.js")).result = .excluded :=
  ⟨by decide,
    (c2_cycle_breaking ⟨fun _ => true, false, false, ""⟩ ⟨"/", fun _ => true, fun _ => "H"⟩
      ⟨[("/proj/A.png.js", "/proj/A.png")], ["/proj/A.png"], [], some "/proj"⟩
      "/proj/A.png" "/proj/main.js" (by decide)).1⟩

/-- C5 as stated is false: for a referenced path that is already a registered
virtual asset id, the registration check (lines 107–111) fires before the
delegation checks, so even though the path does not exist on disk the call
returns `excluded` (false), not `notHandled` (null). -/
theorem c5_registered_id_counterexample :
    (resolveId ⟨fun _ => true, false, false, ""⟩ ⟨"/", fun _ => false, fun _ => "H"⟩
        ⟨[], ["/out/h.png"], [], some "/r"⟩ "/out/h.png" (some "/proj/a.js")).result =
      .excluded ∧
    (fun _ : String => false) (fileSourceOf "/proj/a.js" "/out/h.png") = false ∧
    ResolveResult.excluded ≠ ResolveResult.notHandled := by
  refine ⟨by decide, rfl, by decide⟩

/-- C5 amended: provided the referenced path is not an already-registered
virtual asset id, `resolveId` returns `notHandled` whenever the path has no
extension, or a script-family extension, or the computed absolute source path
fails the filter, or it does not exist on disk — and in all these cases the
registries are unchanged (no entry is created) and no hash is computed. -/
theorem c5_delegation (opts : RebaseOptions) (env : BuildEnv) (st : RebaseState)
    (importee importer : String)
    (hA : st.assets.contains importee = false)
    (hcond : extname importee = "" ∨ scriptExtensions (extname importee) = true ∨
      opts.filter (fileSourceOf importer importee) = false ∨
      env.pathExists (fileSourceOf importer importee) = false) :
    resolveId opts env st importee (some importer) =
      { result := .notHandled, state := st, hashComputations := 0 } :=
  resolveId_delegates opts env st importee importer hA hcond

/-- Witness for C5 (amended) at a script-family import and at a missing file. -/
theorem c5_delegation_witness :
    resolveId ⟨fun _ => true, false, false, ""⟩ ⟨"/", fun _ => false, fun _ => "H"⟩
        emptyState "./util.js" (some "/proj/main.js") =
      { result := .notHandled, state := emptyState, hashComputations := 0 } ∧
    resolveId ⟨fun _ => true, false, false, ""⟩ ⟨"/", fun _ => false, fun _ => "H"⟩
        emptyState "./missing.png" (some "/proj/main.js") =
      { result := .notHandled, state := emptyState, hashComputations := 0 } :=
  ⟨c5_delegation ⟨fun _ => true, false, false, ""⟩ ⟨"/", fun _ => false, fun _ => "H"⟩
      emptyState "./util.js" "/proj/main.js" (by decide) (Or.inr (Or.inl (by decide))),
    c5_delegation ⟨fun _ => true, false, false, ""⟩ ⟨"/", fun _ => false, fun _ => "H"⟩
      emptyState "./missing.png" "/proj/main.js" (by decide) (Or.inr (Or.inr (Or.inr rfl)))⟩

/-- C9: after every sequence of resolver calls starting from the empty
registries of a fresh build, every wrapper entry's target virtual asset id
has a corresponding entry in the registered-asset-id set. -/
theorem c9_registry_invariant (opts : RebaseOptions) (env : BuildEnv)
    (calls : List (String × Option String)) :
    wrapperTargetsRegistered (runCalls opts env calls emptyState) :=
  runCalls_preserves_wrapperInvariant opts env calls emptyState
    (fun w hw => absurd hw (by simp [emptyState]))

/-- Witness for C9 on a concrete two-call build run. -/
theorem c9_registry_invariant_witness :
    wrapperTargetsRegistered (runCalls plainOpts hashAllTrueEnv
      [("/proj/main.js", none), ("./logo.png", some "/proj/main.js")] emptyState) :=
  c9_registry_invariant plainOpts hashAllTrueEnv
    [("/proj/main.js", none), ("./logo.png", some "/proj/main.js")]

/-- C1 as stated is false: re-resolving the same source file from a second
referrer performs a second hash computation and a second destination-path
decision (there is no memoising check on `files`), so two hash computations
happen for one distinct source file — though both entries do store the same
destination path. -/
theorem c1_rehash_counterexample :
    (resolveId plainOpts hashAllTrueEnv projState "./logo.png"
        (some "/proj/main.js")).state.files.lookup "/proj/logo.png" = some "HASH.png" ∧
    (resolveId plainOpts hashAllTrueEnv
        (resolveId plainOpts hashAllTrueEnv projState "./logo.png"
          (some "/proj/main.js")).state "./logo.png"
        (some "/proj/other.js")).state.files.lookup "/proj/logo.png" = some "HASH.png" ∧
    (resolveId plainOpts hashAllTrueEnv projState "./logo.png"
        (some "/proj/main.js")).hashComputations +
      (resolveId plainOpts hashAllTrueEnv
        (resolveId plainOpts hashAllTrueEnv projState "./logo.png"
          (some "/proj/main.js")).state "./logo.png"
        (some "/proj/other.js")).hashComputations = 2 := by decide

/-- C1 amended: resolving the same referenced path a second time from another
referrer in the same directory stores the same destination output path as the
first resolution (the hash is deterministic within a build), but the hash
computation and destination-path decision are performed once per resolver
entry — the second entry repeats them instead of reusing the stored record. -/
theorem c1_idempotent_destination (opts : RebaseOptions) (env : BuildEnv)
    (st : RebaseState) (importee m1 m2 rt : String)
    (hdir : dirname m1 = dirname m2)
    (h1 : registersAsset opts env st importee m1)
    (hR : st.root = some rt)
    (h2 : registersAsset opts env (resolveId opts env st importee (some m1)).state
      importee m2) :
    (resolveId opts env st importee (some m1)).state.files.lookup
        (fileSourceOf m1 importee) =
      some (pathJoin opts.assetFolder
        (fileTargetOf opts env importee (fileSourceOf m1 importee))) ∧
    (resolveId opts env (resolveId opts env st importee (some m1)).state importee
        (some m2)).state.files.lookup (fileSourceOf m1 importee) =
      some (pathJoin opts.assetFolder
        (fileTargetOf opts env importee (fileSourceOf m1 importee))) ∧
    (resolveId opts env (resolveId opts env st importee (some m1)).state importee
        (some m2)).hashComputations =
      (resolveId opts env st importee (some m1)).hashComputations := by
  have hfs : fileSourceOf m2 importee = fileSourceOf m1 importee := by
    unfold fileSourceOf; rw [hdir]
  have e1 := resolveId_registers opts env st importee m1 rt h1 hR
  have hR2 : (resolveId opts env st importee (some m1)).state.root = some rt := by
    rw [e1]; exact hR
  have e2 := resolveId_registers opts env _ importee m2 rt h2 hR2
  refine ⟨?_, ?_, ?_⟩
  · rw [e1]
    simp [List.lookup]
  · rw [e2, hfs, e1]
    simp [List.lookup]
  · rw [e2, e1]

/-- Witness for C1 (amended) at a concrete double resolution. -/
theorem c1_idempotent_destination_witness :
    dirname "/proj/main.js" = dirname "/proj/other.js" ∧
    (resolveId plainOpts hashAllTrueEnv
        (resolveId plainOpts hashAllTrueEnv projState "./logo.png"
          (some "/proj/main.js")).state "./logo.png"
        (some "/proj/other.js")).state.files.lookup
        (fileSourceOf "/proj/main.js" "./logo.png") =
      some (pathJoin plainOpts.assetFolder
        (fileTargetOf plainOpts hashAllTrueEnv "./logo.png"
          (fileSourceOf "/proj/main.js" "./logo.png"))) :=
  ⟨by decide,
    (c1_idempotent_destination plainOpts hashAllTrueEnv projState "./logo.png"
      "/proj/main.js" "/proj/other.js" "/proj" (by decide) (by decide) (by decide)
      (by decide)).2.1⟩

/-- C3 as stated is false for the remapped extension: for a `.sss` asset with
`skipHash = true`, the stored destination is `foo.sss.pcss` — the base-name
component keeps the original `.sss` suffix because `path.basename` is called
with the already-remapped extension — rather than base + extension
(`foo.pcss`, or `foo.sss` on the original-extension reading). -/
theorem c3_sss_basename_counterexample :
    (resolveId skipHashOpts hashAllTrueEnv projState "./foo.sss"
        (some "/proj/main.js")).state.files.lookup "/proj/foo.sss" =
      some "foo.sss.pcss" ∧
    specBaseName "./foo.sss" = "foo" ∧
    effectiveExt "./foo.sss" = ".pcss" ∧
    ("foo.sss.pcss" : String) ≠ "foo.pcss" ∧
    ("foo.sss.pcss" : String) ≠ "foo.sss" := by decide

/-- C3 amended: for every registered asset whose extension is not the
remapped `.sss`, the naming policy holds exactly as claimed: with
`skipHash = true` the destination name is base name plus extension with no
hash component; with hashing enabled and `keepName = true` it is
`base~hash.ext`; with hashing enabled and `keepName = false` it is
`hash.ext`.  (For `.sss` assets the base-name component instead retains the
full original file name.) -/
theorem c3_naming_policy (opts : RebaseOptions) (env : BuildEnv) (st : RebaseState)
    (importee importer rt : String)
    (hreg : registersAsset opts env st importee importer)
    (hR : st.root = some rt)
    (hnot : extname importee ≠ ".sss") :
    (resolveId opts env st importee (some importer)).state.files.head? =
      some (fileSourceOf importer importee,
        pathJoin opts.assetFolder
          (if opts.skipHash then specBaseName importee ++ extname importee
           else if opts.keepName then
             specBaseName importee ++ "~" ++
               env.getHash (fileSourceOf importer importee) ++ extname importee
           else env.getHash (fileSourceOf importer importee) ++ extname importee)) := by
  rw [resolveId_registers opts env st importee importer rt hreg hR]
  have heff : effectiveExt importee = extname importee := by
    unfold effectiveExt; rw [if_neg hnot]
  have hbase := (specBaseName_spec hreg.2.1).1
  simp only [fileTargetOf, heff, hbase, List.head?]

/-- Witness for C3 (amended) at a concrete hashed registration. -/
theorem c3_naming_policy_witness :
    (resolveId plainOpts hashAllTrueEnv projState "./logo.png"
        (some "/proj/main.js")).state.files.head? =
      some (fileSourceOf "/proj/main.js" "./logo.png",
        pathJoin plainOpts.assetFolder
          (if plainOpts.skipHash then
             specBaseName "./logo.png" ++ extname "./logo.png"
           else if plainOpts.keepName then
             specBaseName "./logo.png" ++ "~" ++
               hashAllTrueEnv.getHash (fileSourceOf "/proj/main.js" "./logo.png") ++
               extname "./logo.png"
           else hashAllTrueEnv.getHash (fileSourceOf "/proj/main.js" "./logo.png") ++
             extname "./logo.png")) :=
  c3_naming_policy plainOpts hashAllTrueEnv projState "./logo.png" "/proj/main.js"
    "/proj" (by decide) (by decide) (by decide)

/-- C4: a registered asset referenced with the `.sss` extension is named
under the plain-CSS counterpart extension `.pcss` — its stored destination
name ends in `.pcss` and never in `.sss` — while during emission the parser
is selected from the source file's own extension, so a `.sss` source selects
the SugarSS parser. -/
theorem c4_sss_remap (opts : RebaseOptions) (env : BuildEnv) (st : RebaseState)
    (importee importer rt : String)
    (hreg : registersAsset opts env st importee importer)
    (hR : st.root = some rt)
    (hsss : extname importee = ".sss") :
    (∀ fs rel,
      (resolveId opts env st importee (some importer)).state.files.head? =
        some (fs, rel) →
      strEndsWith rel ".pcss" ∧ ¬ strEndsWith rel ".sss") ∧
    (∀ src, extname src = ".sss" →
      (styleParser (extname src)).isSome = true ∧
      processStyleParser src = some CssParser.sugarss) := by
  constructor
  · intro fs rel hhead
    rw [resolveId_registers opts env st importee importer rt hreg hR] at hhead
    simp only [List.head?, Option.some.injEq, Prod.mk.injEq] at hhead
    have heff : effectiveExt importee = ".pcss" := by
      unfold effectiveExt; rw [if_pos hsss]
    have hend : strEndsWith rel ".pcss" := by
      rw [← hhead.2]
      apply strEndsWith_pathJoin
      rw [← heff]
      exact fileTargetOf_endsWith_effectiveExt opts env importee _
    exact ⟨hend, not_endsWith_sss_of_pcss rel hend⟩
  · intro src hsrc
    refine ⟨by rw [hsrc]; decide, ?_⟩
    unfold processStyleParser
    rw [hsrc]
    decide

/-- Witness for C4 at a concrete `.sss` registration. -/
theorem c4_sss_remap_witness :
    (strEndsWith "foo.sss.pcss" ".pcss" ∧ ¬ strEndsWith "foo.sss.pcss" ".sss") ∧
    processStyleParser "/proj/foo.sss" = some CssParser.sugarss :=
  ⟨(c4_sss_remap skipHashOpts hashAllTrueEnv projState "./foo.sss" "/proj/main.js"
      "/proj" (by decide) (by decide) (by decide)).1 "/proj/foo.sss" "foo.sss.pcss"
      (by decide),
    ((c4_sss_remap skipHashOpts hashAllTrueEnv projState "./foo.sss" "/proj/main.js"
      "/proj" (by decide) (by decide) (by decide)).2 "/proj/foo.sss" (by decide)).2⟩

/-- C8 as stated is false: the root directory is part of every virtual asset
id and redirect id (line 164 joins `root` into the id), so varying the root
with all other inputs fixed changes the returned redirect id and the
registered asset-id and wrapper entries. -/
theorem c8_root_changes_ids_counterexample :
    (resolveId plainOpts hashAllTrueEnv ⟨[], [], [], some "/r1"⟩ "./logo.png"
        (some "/proj/main.js")).result = .handled "/r1/HASH.png.js" ∧
    (resolveId plainOpts hashAllTrueEnv ⟨[], [], [], some "/r2"⟩ "./logo.png"
        (some "/proj/main.js")).result = .handled "/r2/HASH.png.js" ∧
    ("/r1/HASH.png.js" : String) ≠ "/r2/HASH.png.js" := by decide

/-- C8 amended: varying the root while holding all other inputs fixed never
changes the `files` registry (the copy jobs with their output-relative
destinations), the number of hash computations, or anything the emit phase
produces — but it does change redirect ids and the asset-id/wrapper
registries (see the counterexample). -/
theorem c8_outputs_root_invariant (opts : RebaseOptions) (env : BuildEnv)
    (st : RebaseState) (r1 r2 : Option String) (importee : String)
    (importer : Option String) (emitEnv : EmitEnv) (file dir : Option String) :
    (resolveId opts env { st with root := r1 } importee importer).state.files =
      (resolveId opts env { st with root := r2 } importee importer).state.files ∧
    (resolveId opts env { st with root := r1 } importee importer).hashComputations =
      (resolveId opts env { st with root := r2 } importee importer).hashComputations ∧
    generateBundle emitEnv file dir
        (resolveId opts env { st with root := r1 } importee importer).state =
      generateBundle emitEnv file dir
        (resolveId opts env { st with root := r2 } importee importer).state :=
  ⟨(resolveId_root_independent opts env st r1 r2 importee importer).1,
    (resolveId_root_independent opts env st r1 r2 importee importer).2,
    generateBundle_files_only emitEnv file dir _ _
      (resolveId_root_independent opts env st r1 r2 importee importer).1⟩

/-- Witness for C8 (amended) at two concrete roots. -/
theorem c8_outputs_root_invariant_witness :
    (resolveId plainOpts hashAllTrueEnv { emptyState with root := some "/r1" }
        "./logo.png" (some "/proj/main.js")).state.files =
      (resolveId plainOpts hashAllTrueEnv { emptyState with root := some "/r2" }
        "./logo.png" (some "/proj/main.js")).state.files :=
  (c8_outputs_root_invariant plainOpts hashAllTrueEnv emptyState (some "/r1")
    (some "/r2") "./logo.png" (some "/proj/main.js") okEmitEnv none (some "/out")).1

/-- C10 as stated is false: with `skipHash = true`, two distinct source files
sharing a base name are both assigned the destination `logo.png` — the naming
scheme is not collision-resistant without the hash. -/
theorem c10_skiphash_collision_counterexample :
    ("/proj/a/logo.png" : String) ≠ "/proj/b/logo.png" ∧
    (resolveId skipHashOpts hashAllTrueEnv projState "./a/logo.png"
        (some "/proj/main.js")).state.files.lookup "/proj/a/logo.png" =
      some "logo.png" ∧
    (resolveId skipHashOpts hashAllTrueEnv
        (resolveId skipHashOpts hashAllTrueEnv projState "./a/logo.png"
          (some "/proj/main.js")).state "./b/logo.png"
        (some "/proj/main.js")).state.files.lookup "/proj/b/logo.png" =
      some "logo.png" := by decide

/-- C10 amended: with hashing enabled and `keepName = false`, two registered
source files whose content hashes differ (and whose effective extensions
coincide) are necessarily two distinct files and receive distinct destination
output paths; collision-resistance of the naming scheme holds only through
the hash (the counterexample shows it fails with `skipHash = true`). -/
theorem c10_distinct_hash_distinct_dest (opts : RebaseOptions) (env : BuildEnv)
    (st : RebaseState) (i1 m1 i2 m2 rt : String)
    (hsh : opts.skipHash = false) (hkn : opts.keepName = false)
    (h1 : registersAsset opts env st i1 m1) (hR : st.root = some rt)
    (h2 : registersAsset opts env (resolveId opts env st i1 (some m1)).state i2 m2)
    (hhash : env.getHash (fileSourceOf m1 i1) ≠ env.getHash (fileSourceOf m2 i2))
    (hext : effectiveExt i1 = effectiveExt i2) :
    fileSourceOf m1 i1 ≠ fileSourceOf m2 i2 ∧
    ∀ v1 v2,
      (resolveId opts env st i1 (some m1)).state.files.head? =
        some (fileSourceOf m1 i1, v1) →
      (resolveId opts env (resolveId opts env st i1 (some m1)).state i2
          (some m2)).state.files.head? = some (fileSourceOf m2 i2, v2) →
      v1 ≠ v2 := by
  constructor
  · intro hcontra
    exact hhash (by rw [hcontra])
  · intro v1 v2 hh1 hh2
    have e1 := resolveId_registers opts env st i1 m1 rt h1 hR
    have hR2 : (resolveId opts env st i1 (some m1)).state.root = some rt := by
      rw [e1]; exact hR
    have e2 := resolveId_registers opts env _ i2 m2 rt h2 hR2
    rw [e1] at hh1
    rw [e2] at hh2
    simp only [List.head?, Option.some.injEq, Prod.mk.injEq] at hh1 hh2
    rw [← hh1.2, ← hh2.2]
    intro hcontra
    have ht1 : fileTargetOf opts env i1 (fileSourceOf m1 i1) ≠ "" := by
      rw [fileTargetOf_hashOnly opts env i1 _ hsh hkn]
      exact append_ne_empty_of_right (effectiveExt_ne_empty h1.2.1)
    have ht2 : fileTargetOf opts env i2 (fileSourceOf m2 i2) ≠ "" := by
      rw [fileTargetOf_hashOnly opts env i2 _ hsh hkn]
      exact append_ne_empty_of_right (effectiveExt_ne_empty h2.2.1)
    have hteq := pathJoin_right_inj _ _ _ ht1 ht2 hcontra
    rw [fileTargetOf_hashOnly opts env i1 _ hsh hkn,
      fileTargetOf_hashOnly opts env i2 _ hsh hkn, ← hext] at hteq
    exact hhash (string_append_right_cancel hteq)

/-- Witness for C10 (amended): two sources with different hashes land on
different destinations. -/
theorem c10_distinct_hash_distinct_dest_witness :
    ("H1.png" : String) ≠ "H2.png" :=
  (c10_distinct_hash_distinct_dest plainOpts twoHashEnv projState "./a/logo.png"
    "/proj/main.js" "./b/logo.png" "/proj/main.js" "/proj" rfl rfl (by decide)
    (by decide) (by decide) (by decide) (by decide)).2 "H1.png" "H2.png"
    (by decide) (by decide)

/-- C6: for every registered asset whose source extension is a key of the
stylesheet-parser table, the emit step (when the asset's pipeline settles)
writes the transformed stylesheet text at the destination path and a separate
source-map file at destination + ".map"; for every registered asset with any
other extension it writes the source bytes verbatim at the destination. -/
theorem c6_dialect_emission (emitEnv : EmitEnv) (file dir : Option String)
    (st : RebaseState) (src rel : String)
    (hmem : (src, rel) ∈ st.files) :
    ((styleParser (extname src)).isSome = true →
      emitEnv.styleError src (pathJoin (outputFolderOf file dir) rel) = none →
      (pathJoin (outputFolderOf file dir) rel,
          emitEnv.cssOut src (pathJoin (outputFolderOf file dir) rel)) ∈
        (generateBundle emitEnv file dir st).1 ∧
      (pathJoin (outputFolderOf file dir) rel ++ ".map",
          emitEnv.mapOut src (pathJoin (outputFolderOf file dir) rel)) ∈
        (generateBundle emitEnv file dir st).1) ∧
    (styleParser (extname src) = none →
      emitEnv.copyError src (pathJoin (outputFolderOf file dir) rel) = none →
      (pathJoin (outputFolderOf file dir) rel, emitEnv.readBytes src) ∈
        (generateBundle emitEnv file dir st).1) := by
  constructor
  · intro hstyle herr
    have hjob : EmitJob.style src (pathJoin (outputFolderOf file dir) rel) ∈
        emitJobs (outputFolderOf file dir) st := by
      unfold emitJobs
      refine List.mem_map.mpr ⟨(src, rel), hmem, ?_⟩
      simp [hstyle]
    have hok : runJob emitEnv (EmitJob.style src (pathJoin (outputFolderOf file dir) rel)) =
        .ok [(pathJoin (outputFolderOf file dir) rel,
            emitEnv.cssOut src (pathJoin (outputFolderOf file dir) rel)),
          (pathJoin (outputFolderOf file dir) rel ++ ".map",
            emitEnv.mapOut src (pathJoin (outputFolderOf file dir) rel))] := by
      simp only [runJob]
      rw [herr]
    exact ⟨generateBundle_writes_of_ok emitEnv file dir st _ _ hjob hok _ (by simp),
      generateBundle_writes_of_ok emitEnv file dir st _ _ hjob hok _ (by simp)⟩
  · intro hplain herr
    have hjob : EmitJob.copy src (pathJoin (outputFolderOf file dir) rel) ∈
        emitJobs (outputFolderOf file dir) st := by
      unfold emitJobs
      refine List.mem_map.mpr ⟨(src, rel), hmem, ?_⟩
      simp [hplain]
    have hok : runJob emitEnv (EmitJob.copy src (pathJoin (outputFolderOf file dir) rel)) =
        .ok [(pathJoin (outputFolderOf file dir) rel, emitEnv.readBytes src)] := by
      simp only [runJob]
      rw [herr]
    exact generateBundle_writes_of_ok emitEnv file dir st _ _ hjob hok _ (by simp)

/-- Witness for C6 at a concrete two-asset registry. -/
theorem c6_dialect_emission_witness :
    (("/out/a.css", okEmitEnv.cssOut "/s/a.css" "/out/a.css") ∈
        (generateBundle okEmitEnv none (some "/out") twoFileState).1 ∧
      ("/out/a.css" ++ ".map", okEmitEnv.mapOut "/s/a.css" "/out/a.css") ∈
        (generateBundle okEmitEnv none (some "/out") twoFileState).1) ∧
    ("/out/b.png", okEmitEnv.readBytes "/s/b.png") ∈
      (generateBundle okEmitEnv none (some "/out") twoFileState).1 := by
  refine ⟨?_, ?_⟩
  · exact (c6_dialect_emission okEmitEnv none (some "/out") twoFileState "/s/a.css"
      "a.css" (by decide)).1 (by decide) rfl
  · exact (c6_dialect_emission okEmitEnv none (some "/out") twoFileState "/s/b.png"
      "b.png" (by decide)).2 (by decide) rfl

/-- C7 as stated is false in one respect: the fatal wrapper carries the fixed
text "Error while copying files" for both stages, so a copy-stage failure and
a process-stage failure with the same underlying error produce the identical
fatal error — the wrapper does not indicate which stage was in progress. -/
theorem c7_stage_indistinguishable_counterexample :
    (generateBundle failCopyEnv none (some "/out") pngFileState).2 =
      some "Error while copying files: boom" ∧
    (generateBundle failStyleEnv none (some "/out") cssFileState).2 =
      some "Error while copying files: boom" ∧
    styleParser (extname "/s/a.png") = none ∧
    (styleParser (extname "/s/a.css")).isSome = true := by decide

/-- C7 amended: if any single asset's operation fails, the emit step aborts
with a single fatal error wrapping the underlying failure behind the fixed
context "Error while copying files" (the same for both stages); each
registered asset is attempted exactly once (no retry), and every write of a
successfully settled asset remains in the output (no rollback). -/
theorem c7_fatal_wrap (emitEnv : EmitEnv) (file dir : Option String)
    (st : RebaseState) :
    (∀ s, (generateBundle emitEnv file dir st).2 = some s →
      ∃ e, s = wrapEmitError e) ∧
    (emitJobs (outputFolderOf file dir) st).length = st.files.length ∧
    (∀ job ws, job ∈ emitJobs (outputFolderOf file dir) st →
      runJob emitEnv job = .ok ws →
      ∀ w ∈ ws, w ∈ (generateBundle emitEnv file dir st).1) := by
  refine ⟨?_, ?_, ?_⟩
  · intro s hs
    unfold generateBundle at hs
    simp only [Option.map_eq_some'] at hs
    obtain ⟨e, -, he⟩ := hs
    exact ⟨e, he.symm⟩
  · simp [emitJobs]
  · exact fun job ws hjob hok => generateBundle_writes_of_ok emitEnv file dir st job ws hjob hok

/-- Witness for C7 (amended): the concrete fatal error has the fixed wrap. -/
theorem c7_fatal_wrap_witness :
    ∃ e, "Error while copying files: boom" = wrapEmitError e :=
  (c7_fatal_wrap failCopyEnv none (some "/out") pngFileState).1
    "Error while copying files: boom" (by decide)

end Rebase
